import Mathlib

/-!
# ArbiShark — verification of the specification against the code

Shallow embedding of the ArbiShark repository's verifiable parts:

* the `DemoMarket` Solidity contract (contracts/DemoMarket.sol, the version
  shipping `updatePrices`, `simulatePriceMovement`, `hasArbitrage`);
* the Stylus-ready pure Rust functions `calc_spread`, `detect_arbitrage`,
  `expected_profit`;
* the scaffolding CLI's daily-limit input validation;
* components of the trading core that the repository documents but whose
  Rust source is not present (PermissionGuard, ConstraintEngine evaluate,
  ArbitrageDetector gate, ExecutionSimulator book walk): these are modelled
  from the spec, each marked as such in its doc comment.

Machine integers are modelled as `Nat`/`Int` with explicit two's-complement
casts where the Solidity code casts; prices in basis points are `Nat`;
the Rust `f64` quantities are modelled as `ℚ`.
-/

namespace ArbiShark

/-! ## DemoMarket contract (contracts/DemoMarket.sol) -/

/-- The contract's `Market` struct: question, prices in basis points
(0–10000), liquidity in USDC (6 decimals), active flag. -/
structure Market where
  question : String
  yesPrice : ℕ
  noPrice : ℕ
  liquidity : ℕ
  active : Bool
deriving DecidableEq, Repr

/-- Full contract storage: the `market` struct plus `owner` (an address,
modelled as `ℕ`) and `lastUpdateTime`. -/
structure DemoMarketState where
  market : Market
  owner : ℕ
  lastUpdateTime : ℕ
deriving DecidableEq, Repr

/-- Solidity `int256(x)` applied to a `uint256` value: two's-complement
reinterpretation of `x % 2^256`. -/
def toInt256 (x : ℕ) : ℤ :=
  if x % 2 ^ 256 < 2 ^ 255 then ((x % 2 ^ 256 : ℕ) : ℤ)
  else ((x % 2 ^ 256 : ℕ) : ℤ) - 2 ^ 256

/-- The constructor: question from the argument, prices 5000/5000,
liquidity 1000 USDC, active, owner = deployer, `lastUpdateTime` = now. -/
def constructorState (q : String) (sender now : ℕ) : DemoMarketState :=
  { market := { question := q, yesPrice := 5000, noPrice := 5000,
                liquidity := 1000 * 1000000, active := true }
    owner := sender
    lastUpdateTime := now }

/-- `updatePrices(_yesPrice, _noPrice)`: `onlyOwner`, requires the market
active and both prices ≤ 10000, then stores the prices and refreshes
`lastUpdateTime`.  `none` models a revert (the transaction leaves the
state unchanged). -/
def updatePrices (s : DemoMarketState) (sender now y n : ℕ) :
    Option DemoMarketState :=
  if sender ≠ s.owner then none
  else if s.market.active = false then none
  else if ¬ (y ≤ 10000 ∧ n ≤ 10000) then none
  else some { s with
    market := { s.market with yesPrice := y, noPrice := n }
    lastUpdateTime := now }

/-- `hasArbitrage()`: `sum = int256(yesPrice + noPrice)`,
`spread = sum - 10000`, returns `(spread != 0, spread)`. -/
def hasArbitrage (s : DemoMarketState) : Bool × ℤ :=
  let sum : ℤ := toInt256 (s.market.yesPrice + s.market.noPrice)
  let spread : ℤ := sum - 10000
  (decide (spread ≠ 0), spread)

/-- The pseudo-random adjustment of `simulatePriceMovement`:
`int256(randomness % 500) - 250`. -/
def priceChange (randomness : ℕ) : ℤ :=
  toInt256 (randomness % 500) - 250

/-- The clamping applied to each price by `simulatePriceMovement`: first
`if (p < 100) p = 100;` then `if (p > 9900) p = 9900;`. -/
def clampPrice (x : ℤ) : ℤ :=
  let x1 := if x < 100 then 100 else x
  if x1 > 9900 then 9900 else x1

/-- `simulatePriceMovement()`: `onlyOwner`, requires the market active,
adds `priceChange` to `int256(yesPrice)`, subtracts it from
`int256(noPrice)`, clamps both into `[100, 9900]` via `clampPrice`, and
casts back to `uint256`. -/
def simulatePriceMovement (s : DemoMarketState) (sender now randomness : ℕ) :
    Option DemoMarketState :=
  if sender ≠ s.owner then none
  else if s.market.active = false then none
  else
    let c := priceChange randomness
    some { s with
      market := { s.market with
        yesPrice := (clampPrice (toInt256 s.market.yesPrice + c)).toNat
        noPrice := (clampPrice (toInt256 s.market.noPrice - c)).toNat }
      lastUpdateTime := now }

/-! ## Stylus-ready pure functions (Rust, modelled over ℚ) -/

/-- `calc_spread(bid, ask)`: `(bid - ask) / ask` when `ask > 0.0`,
else `0.0`. -/
def calc_spread (bid ask : ℚ) : ℚ :=
  if 0 < ask then (bid - ask) / ask else 0

/-- `detect_arbitrage(prices)`: true iff the sum of the prices strictly
exceeds `1.0`. -/
def detect_arbitrage (prices : List ℚ) : Bool :=
  decide (1 < prices.sum)

/-- `expected_profit(size, spread) = size * spread`. -/
def expected_profit (size spread : ℚ) : ℚ :=
  size * spread

/-! ## ConstraintEngine (modelled from the spec) -/

/-- Modelled from the spec: the Rust `ConstraintEngine::evaluate` is not in
the repository snapshot; per the spec, `evaluate(group, prices)` is the pure
function `edge = |expected_sum − Σ weight_i·price_i|`. -/
def evaluate (expected_sum : ℚ) (weights prices : List ℚ) : ℚ :=
  |expected_sum - (List.zipWith (· * ·) weights prices).sum|

/-! ## ArbitrageDetector (modelled from the spec) -/

/-- Modelled from the spec: the detector's total-cost estimate
`fee_estimate(size) + slippage_estimate(size) + adverse_selection_estimate`
(the Rust `ArbitrageDetector` source is not in the snapshot). -/
def totalCost (fee slip adverse : ℚ) : ℚ :=
  fee + slip + adverse

/-- Modelled from the spec: the detector's expected profit,
`edge × size − total cost`. -/
def expectedProfitSpec (edge size fee slip adverse : ℚ) : ℚ :=
  edge * size - totalCost fee slip adverse

/-- Modelled from the spec: `ArbitrageDetector::detect` emits a signal
(carrying its expected profit) only if `edge > min_spread_threshold` AND
`expected_profit > min_profit_threshold`, both strict. -/
def detectSignal (min_spread_threshold min_profit_threshold : ℚ)
    (edge size fee slip adverse : ℚ) : Option ℚ :=
  let ep := expectedProfitSpec edge size fee slip adverse
  if min_spread_threshold < edge ∧ min_profit_threshold < ep then some ep
  else none

/-! ## PermissionGuard (modelled from the spec) -/

/-- Modelled from the spec: `PermissionState` — `daily_limit`,
`spent_today`, `window_start`, `duration`, `revoked` (the Rust
`PermissionGuard` source is not in the snapshot; only the docs declare it).
Times and amounts are `ℚ`. -/
structure PermissionState where
  daily_limit : ℚ
  spent_today : ℚ
  window_start : ℚ
  duration : ℚ
  revoked : Bool
deriving DecidableEq, Repr

/-- Modelled from the spec: `can_spend(amount)` is true iff not revoked,
the current time is within the window, and
`spent_today + amount ≤ daily_limit`. -/
def can_spend (now amount : ℚ) (st : PermissionState) : Bool :=
  !st.revoked
    && decide (st.window_start ≤ now)
    && decide (now < st.window_start + st.duration)
    && decide (st.spent_today + amount ≤ st.daily_limit)

/-- Modelled from the spec: `record_spend(amount)` atomically increments
`spent_today`. -/
def record_spend (amount : ℚ) (st : PermissionState) : PermissionState :=
  { st with spent_today := st.spent_today + amount }

/-- An operation of the guard's interface used by the Engine:
a `can_spend` query or a `record_spend`. -/
inductive GuardOp where
  | canSpendQ (amount : ℚ)
  | recordSpend (amount : ℚ)
deriving DecidableEq, Repr

/-- Modelled from the spec: one guarded step under the Engine's single-writer
discipline — `record_spend` "must be called only after `can_spend` returned
true for the same amount in the same tick", so a `recordSpend` is applied
exactly when `can_spend` approves it at the step's time; a `can_spend` query
does not change state. -/
def guardStep (now : ℚ) (op : GuardOp) (st : PermissionState) :
    PermissionState :=
  match op with
  | .canSpendQ _ => st
  | .recordSpend a => if can_spend now a st then record_spend a st else st

/-- Running a timestamped sequence of guard operations. -/
def runGuard : List (ℚ × GuardOp) → PermissionState → PermissionState
  | [], st => st
  | (t, op) :: rest, st => runGuard rest (guardStep t op st)

/-! ## ExecutionSimulator book walk (modelled from the spec) -/

/-- A `{price, size}` order-book level. -/
structure Level where
  price : ℚ
  size : ℚ
deriving DecidableEq, Repr

/-- Modelled from the spec: the ExecutionSimulator's book walk (the Rust
`OrderBook::execution_price` source is not in the snapshot; the spec and
docs/math.md give the algorithm): accumulate size from best price outward,
`fill = min(remaining, level.size)`, `cost += fill × price`; returns
`(total_cost, unfilled remainder)`. -/
def bookWalk : ℚ → List Level → ℚ × ℚ
  | remaining, [] => (0, remaining)
  | remaining, l :: ls =>
    if remaining = 0 then (0, 0)
    else
      let fill := min remaining l.size
      let rest := bookWalk (remaining - fill) ls
      (fill * l.price + rest.1, rest.2)

/-- Total cost of walking the book for a requested size. -/
def walkCost (size : ℚ) (levels : List Level) : ℚ :=
  (bookWalk size levels).1

/-- Unfilled remainder after walking the book. -/
def walkRemainder (size : ℚ) (levels : List Level) : ℚ :=
  (bookWalk size levels).2

/-! ## Scaffolding CLI daily-limit validation (cli/index.ts)

The prompt's validator is
`validate: (input) => !isNaN(input) && parseFloat(input) > 0`,
which uses two different JavaScript parses.  `isNaN(input)` coerces with
`Number(input)`: after trimming surrounding whitespace the whole input
must be a numeric literal — an optional-sign decimal with optional
fraction and exponent, or an unsigned `0x`/`0b`/`0o` radix integer
literal — and the whitespace-only input is `0`.  `parseFloat(input)`
instead reads the longest optional-sign decimal prefix (fraction and
exponent included) after leading whitespace and never reads radix
literals: on `"0x10"` it reads only the leading `0`.  Inputs are
tokenized by character class; the non-finite literal `Infinity` is not
representable in `ℚ` and is outside the model. -/

/-- An input character, tokenized by class: a decimal digit `'0'`–`'9'`
with its value, the hex-letter digits `a`–`f` / `A`–`F` (where `b`/`B`
also serves as the binary radix marker and `e`/`E` as the exponent
marker, exactly as the same characters do in JavaScript), the radix
markers `o`/`O` and `x`/`X`, a decimal point, a sign, whitespace, or any
other character. -/
inductive InChar where
  | digit (d : ℕ)
  | letterA
  | letterB
  | letterC
  | letterD
  | letterE
  | letterF
  | letterO
  | letterX
  | dot
  | plus
  | minus
  | space
  | other
deriving DecidableEq, Repr

/-- Whitespace test. -/
def isSpace : InChar → Bool
  | .space => true
  | _ => false

/-- Hexadecimal digit value of a character (`0`–`9`, `a`–`f`). -/
def hexVal : InChar → Option ℕ
  | .digit d => some d
  | .letterA => some 10
  | .letterB => some 11
  | .letterC => some 12
  | .letterD => some 13
  | .letterE => some 14
  | .letterF => some 15
  | _ => none

/-- Digit value of a character in the given radix. -/
def radixDigitVal (radix : ℕ) (c : InChar) : Option ℕ :=
  match hexVal c with
  | some d => if d < radix then some d else none
  | none => none

/-- Consume leading decimal digits: accumulated value, count of digits
consumed, rest of the input. -/
def parseDigits : List InChar → ℕ → ℕ → ℕ × ℕ × List InChar
  | [], acc, cnt => (acc, cnt, [])
  | .digit d :: cs, acc, cnt => parseDigits cs (10 * acc + d) (cnt + 1)
  | c :: cs, acc, cnt => (acc, cnt, c :: cs)

/-- Consume leading digits of the given radix. -/
def parseRadixDigits (radix : ℕ) : List InChar → ℕ → ℕ → ℕ × ℕ × List InChar
  | [], acc, cnt => (acc, cnt, [])
  | c :: cs, acc, cnt =>
    match radixDigitVal radix c with
    | some d => parseRadixDigits radix cs (radix * acc + d) (cnt + 1)
    | none => (acc, cnt, c :: cs)

/-- Parse an optional exponent part — `e`/`E`, optional sign, digits —
returning the signed exponent and the rest, or `none` when no exponent
is consumed (also when `e` is not followed by digits, as in JavaScript,
where `parseFloat("1e")` is `1`). -/
def parseExponent : List InChar → Option (ℤ × List InChar)
  | .letterE :: rest =>
    let se : ℤ × List InChar :=
      match rest with
      | .minus :: r => (-1, r)
      | .plus :: r => (1, r)
      | r => (1, r)
    let ep := parseDigits se.2 0 0
    if ep.2.1 = 0 then none else some (se.1 * (ep.1 : ℤ), ep.2.2)
  | _ => none

/-- Parse the longest decimal-literal prefix: optional sign, integer
digits, optional fraction, optional exponent.  Returns the value and the
unconsumed rest; `none` when no digit is consumed. -/
def parseDecPrefix (cs : List InChar) : Option (ℚ × List InChar) :=
  let signRest : ℚ × List InChar :=
    match cs with
    | .minus :: r => (-1, r)
    | .plus :: r => (1, r)
    | r => (1, r)
  let ipart := parseDigits signRest.2 0 0
  let mant : Option (ℚ × List InChar) :=
    match ipart.2.2 with
    | .dot :: cs3 =>
      let fpart := parseDigits cs3 0 0
      if ipart.2.1 = 0 ∧ fpart.2.1 = 0 then none
      else some ((ipart.1 : ℚ) + (fpart.1 : ℚ) / (10 : ℚ) ^ fpart.2.1, fpart.2.2)
    | _ => if ipart.2.1 = 0 then none else some ((ipart.1 : ℚ), ipart.2.2)
  match mant with
  | none => none
  | some (m, rest) =>
    match parseExponent rest with
    | some (e, rest2) => some (signRest.1 * (m * (10 : ℚ) ^ e), rest2)
    | none => some (signRest.1 * m, rest)

/-- The unsigned radix prefix of a `Number` literal: `0x`, `0b` or `0o`,
with its radix and the remainder (radix literals take no sign in
JavaScript: `Number("-0x10")` is NaN). -/
def radixOf : List InChar → Option (ℕ × List InChar)
  | .digit 0 :: .letterX :: rest => some (16, rest)
  | .digit 0 :: .letterB :: rest => some (2, rest)
  | .digit 0 :: .letterO :: rest => some (8, rest)
  | _ => none

/-- The tail of a radix integer literal: all remaining non-space input
must be digits of the radix, at least one. -/
def jsRadixTail (radix : ℕ) (rest : List InChar) : Option ℚ :=
  let p := parseRadixDigits radix rest 0 0
  if p.2.1 ≠ 0 ∧ p.2.2.all isSpace then some (p.1 : ℚ) else none

/-- JavaScript `parseFloat`: the longest decimal-literal prefix after
leading whitespace; `none` (NaN) when there is none. -/
def jsParseFloat (s : List InChar) : Option ℚ :=
  (parseDecPrefix (s.dropWhile isSpace)).map Prod.fst

/-- JavaScript `Number` (as used by `isNaN`): after whitespace trimming
the whole input must be a decimal literal or an unsigned radix integer
literal; whitespace-only input is `0`; `none` is NaN. -/
def jsNumber (s : List InChar) : Option ℚ :=
  let t := s.dropWhile isSpace
  if t = [] then some 0
  else
    match radixOf t with
    | some (radix, rest) => jsRadixTail radix rest
    | none =>
      match parseDecPrefix t with
      | some (v, rest) => if rest.all isSpace then some v else none
      | none => none

/-- The `dailyLimit` prompt's validator:
`!isNaN(input) && parseFloat(input) > 0`. -/
def validateDailyLimit (input : List InChar) : Bool :=
  (jsNumber input).isSome
    && (match jsParseFloat input with
        | some v => decide (0 < v)
        | none => false)

/-! ## Concrete states used by scenarios and witnesses -/

/-- Scenario A's contract state: prices 6200/4300 basis points after
`updatePrices`, the rest from the constructor. -/
def scenarioAState : DemoMarketState :=
  { market := { question := "Will Bitcoin reach $100k by end of 2026?",
                yesPrice := 6200, noPrice := 4300,
                liquidity := 1000 * 1000000, active := true }
    owner := 1
    lastUpdateTime := 7 }

/-- A contract state whose prices sum below 10000 (both outcomes
underpriced). -/
def underpricedState : DemoMarketState :=
  { market := { question := "q", yesPrice := 4000, noPrice := 4000,
                liquidity := 1000 * 1000000, active := true }
    owner := 0
    lastUpdateTime := 0 }

/-- Scenario D's permission state: `daily_limit = 10.0`,
`spent_today = 7.50`, a one-day window starting at 0, not revoked. -/
def scenarioDState : PermissionState :=
  { daily_limit := 10, spent_today := 15/2, window_start := 0,
    duration := 1, revoked := false }

/-- The state produced by `simulatePriceMovement` from the constructor
state with randomness 0 (price change −250). -/
def simMovedState : DemoMarketState :=
  { market := { question := "q", yesPrice := 4750, noPrice := 5250,
                liquidity := 1000 * 1000000, active := true }
    owner := 1
    lastUpdateTime := 2 }

/-! ## Helper lemmas -/

/-- For in-range prices, `hasArbitrage` fires iff the basis-point sum
differs from 10000, and the returned spread is the signed difference. -/
lemma hasArbitrage_char (s : DemoMarketState)
    (hy : s.market.yesPrice ≤ 10000) (hn : s.market.noPrice ≤ 10000) :
    ((hasArbitrage s).1 = true
        ↔ s.market.yesPrice + s.market.noPrice ≠ 10000)
    ∧ (hasArbitrage s).2
        = (s.market.yesPrice : ℤ) + (s.market.noPrice : ℤ) - 10000 := by
  have hle : s.market.yesPrice + s.market.noPrice ≤ 20000 := by omega
  have hmod : (s.market.yesPrice + s.market.noPrice) % 2 ^ 256
      = s.market.yesPrice + s.market.noPrice :=
    Nat.mod_eq_of_lt (lt_of_le_of_lt hle (by norm_num))
  have hti : toInt256 (s.market.yesPrice + s.market.noPrice)
      = (s.market.yesPrice : ℤ) + (s.market.noPrice : ℤ) := by
    rw [toInt256, hmod, if_pos (lt_of_le_of_lt hle (by norm_num))]
    push_cast
    ring_nf
  simp only [hasArbitrage, hti]
  constructor
  · simp only [decide_eq_true_eq]
    omega
  · ring_nf

lemma priceChange_bound_aux (r : ℕ) :
    -250 ≤ priceChange r ∧ priceChange r ≤ 250 := by
  have h : r % 500 < 500 := Nat.mod_lt _ (by norm_num)
  have hmod : r % 500 % 2 ^ 256 = r % 500 :=
    Nat.mod_eq_of_lt (lt_trans h (by norm_num))
  have hsmall : r % 500 % 2 ^ 256 < 2 ^ 255 := by
    rw [hmod]; exact lt_trans h (by norm_num)
  rw [priceChange, toInt256, if_pos hsmall, hmod]
  omega

lemma clampPrice_bounds (x : ℤ) :
    100 ≤ clampPrice x ∧ clampPrice x ≤ 9900 := by
  simp only [clampPrice]
  rcases lt_or_le x 100 with h | h <;>
    simp only [if_pos h, if_neg (not_lt.mpr h)] <;> split <;> omega

lemma guardStep_daily_limit_eq (now : ℚ) (op : GuardOp) (st : PermissionState) :
    (guardStep now op st).daily_limit = st.daily_limit := by
  rcases op with a | a
  · rfl
  · rw [guardStep]
    split <;> rfl

lemma guardStep_spent_le (now : ℚ) (op : GuardOp) (st : PermissionState)
    (h : st.spent_today ≤ st.daily_limit) :
    (guardStep now op st).spent_today ≤ (guardStep now op st).daily_limit := by
  rcases op with a | a
  · exact h
  · rw [guardStep]
    split
    next hc =>
      rw [can_spend] at hc
      simp only [Bool.and_eq_true, decide_eq_true_eq, Bool.not_eq_true'] at hc
      exact hc.2
    next => exact h

/-! ## C10 — calc_spread guarded division -/

/-- C10: `calc_spread(bid, ask)` is total with a guarded division: it
returns `(bid − ask)/ask` when `ask > 0` and `0` otherwise, for every
pair of inputs including `ask = 0` and negative `ask`. -/
theorem calc_spread_guarded_division (bid ask : ℚ) :
    (0 < ask → calc_spread bid ask = (bid - ask) / ask)
    ∧ (¬ 0 < ask → calc_spread bid ask = 0) := by
  constructor <;> intro h <;> simp [calc_spread, h]

theorem calc_spread_guarded_division_witness :
    calc_spread 5 2 = (5 - 2) / 2
    ∧ calc_spread 5 0 = 0
    ∧ calc_spread 5 (-1) = 0 :=
  ⟨(calc_spread_guarded_division 5 2).1 (by norm_num),
   (calc_spread_guarded_division 5 0).2 (by norm_num),
   (calc_spread_guarded_division 5 (-1)).2 (by norm_num)⟩

/-! ## C5 — Scenario A -/

/-- C5: for Scenario A — prices YES=0.62, NO=0.43, expected_sum=1.0,
in basis points 6200/4300 set via `updatePrices` — the edge is 0.05
(500 basis points) and `hasArbitrage` reports an opportunity. -/
theorem scenario_a_edge_and_contract :
    evaluate 1 [1, 1] [62/100, 43/100] = 5/100
    ∧ updatePrices
        (constructorState "Will Bitcoin reach $100k by end of 2026?" 1 0)
        1 7 6200 4300 = some scenarioAState
    ∧ hasArbitrage scenarioAState = (true, 500) := by
  refine ⟨?_, ?_, ?_⟩
  · norm_num [evaluate]
  · decide
  · decide

/-! ## C2 — edge is an absolute deviation; the contract's spread is signed -/

/-- C2 counterexample: at yesPrice = noPrice = 4000 the contract's
`hasArbitrage` reports an opportunity but returns the negative spread
−2000, refuting "the spread it returns is non-negative". -/
theorem hasArbitrage_spread_nonneg_counterexample :
    (hasArbitrage underpricedState).1 = true
    ∧ (hasArbitrage underpricedState).2 = -2000
    ∧ ¬ 0 ≤ (hasArbitrage underpricedState).2 := by
  decide

/-- C2 (amended): the computed edge `|expected_sum − Σ weight_i·price_i|`
is never negative and is zero exactly when the weighted price sum equals
`expected_sum`; the DemoMarket contract's `hasArbitrage` reports an
opportunity iff `yesPrice + noPrice ≠ 10000`, and the spread it returns
is the signed difference `(yesPrice + noPrice) − 10000`, which is
negative whenever the sum is below 10000. -/
theorem edge_abs_and_signed_contract_spread :
    (∀ (expected_sum : ℚ) (weights prices : List ℚ),
        0 ≤ evaluate expected_sum weights prices
        ∧ (evaluate expected_sum weights prices = 0
            ↔ (List.zipWith (· * ·) weights prices).sum = expected_sum))
    ∧ (∀ s : DemoMarketState,
        s.market.yesPrice ≤ 10000 → s.market.noPrice ≤ 10000 →
        (((hasArbitrage s).1 = true
            ↔ s.market.yesPrice + s.market.noPrice ≠ 10000)
          ∧ (hasArbitrage s).2
              = (s.market.yesPrice : ℤ) + (s.market.noPrice : ℤ) - 10000)) := by
  constructor
  · intro es ws ps
    refine ⟨abs_nonneg _, ?_⟩
    rw [evaluate, abs_eq_zero, sub_eq_zero, eq_comm]
  · intro s hy hn
    exact hasArbitrage_char s hy hn

theorem edge_abs_and_signed_contract_spread_witness :
    0 ≤ evaluate 1 [1, 1] [62/100, 43/100]
    ∧ (hasArbitrage underpricedState).1 = true
    ∧ (hasArbitrage underpricedState).2 = (4000 : ℤ) + (4000 : ℤ) - 10000 := by
  refine ⟨(edge_abs_and_signed_contract_spread.1 1 [1, 1] [62/100, 43/100]).1, ?_, ?_⟩
  · exact (edge_abs_and_signed_contract_spread.2 underpricedState
      (by decide) (by decide)).1.mpr (by decide)
  · exact (edge_abs_and_signed_contract_spread.2 underpricedState
      (by decide) (by decide)).2

/-! ## C3 — strict trade/no-trade gate -/

/-- C3: the modelled detector emits a signal only under the strict
inequalities `edge > min_spread_threshold` and
`expected_profit > min_profit_threshold` — at-threshold inputs never
produce a signal, and any emitted signal satisfies both strict bounds;
the code's predicates are `detect_arbitrage` (fires iff the price sum
strictly exceeds 1.0) and `hasArbitrage` (fires iff the basis-point sum
differs from 10000). -/
theorem detector_strict_gate :
    (∀ min_spread min_profit edge size fee slip adverse : ℚ,
        (edge ≤ min_spread
          ∨ expectedProfitSpec edge size fee slip adverse ≤ min_profit) →
        detectSignal min_spread min_profit edge size fee slip adverse = none)
    ∧ (∀ min_spread min_profit edge size fee slip adverse ep : ℚ,
        detectSignal min_spread min_profit edge size fee slip adverse = some ep →
        min_spread < edge ∧ min_profit < ep)
    ∧ (∀ prices : List ℚ, detect_arbitrage prices = true ↔ 1 < prices.sum)
    ∧ (∀ s : DemoMarketState,
        s.market.yesPrice ≤ 10000 → s.market.noPrice ≤ 10000 →
        ((hasArbitrage s).1 = true
          ↔ s.market.yesPrice + s.market.noPrice ≠ 10000)) := by
  refine ⟨?_, ?_, ?_, ?_⟩
  · intro ms mp e sz f sl a h
    have hng : ¬ (ms < e ∧ mp < expectedProfitSpec e sz f sl a) := by
      rintro ⟨h1, h2⟩
      rcases h with h | h
      · exact absurd h1 (not_lt.mpr h)
      · exact absurd h2 (not_lt.mpr h)
    simp [detectSignal, hng]
  · intro ms mp e sz f sl a ep h
    by_cases hc : ms < e ∧ mp < expectedProfitSpec e sz f sl a
    · simp only [detectSignal, if_pos hc, Option.some.injEq] at h
      exact ⟨hc.1, h ▸ hc.2⟩
    · simp [detectSignal, hc] at h
  · intro ps
    simp [detect_arbitrage]
  · intro s hy hn
    exact (hasArbitrage_char s hy hn).1

theorem detector_strict_gate_witness :
    detectSignal 1 1 1 5 0 0 0 = none
    ∧ detect_arbitrage [3/4, 3/4] = true
    ∧ (hasArbitrage scenarioAState).1 = true := by
  refine ⟨detector_strict_gate.1 1 1 1 5 0 0 0 (Or.inl le_rfl), ?_, ?_⟩
  · exact (detector_strict_gate.2.2.1 [3/4, 3/4]).mpr (by norm_num)
  · exact (detector_strict_gate.2.2.2 scenarioAState
      (by decide) (by decide)).mpr (by decide)

/-! ## C4 — expected profit and the cost model -/

/-- C4: the modelled detector's expected profit is
`edge × size − (fee_estimate + slippage_estimate + adverse_selection)`,
hence never exceeds `edge × size` when the three cost terms are
non-negative; the code's `expected_profit` computes `size × spread`,
which coincides with the modelled profit at zero costs. -/
theorem expected_profit_cost_model :
    (∀ edge size fee slip adverse : ℚ,
        expectedProfitSpec edge size fee slip adverse
          = edge * size - (fee + slip + adverse))
    ∧ (∀ edge size fee slip adverse : ℚ,
        0 ≤ fee → 0 ≤ slip → 0 ≤ adverse →
        expectedProfitSpec edge size fee slip adverse ≤ edge * size)
    ∧ (∀ size spread : ℚ,
        expected_profit size spread = size * spread
        ∧ expected_profit size spread = expectedProfitSpec spread size 0 0 0) := by
  refine ⟨?_, ?_, ?_⟩
  · intro e s f sl a
    rw [expectedProfitSpec, totalCost]
  · intro e s f sl a hf hs ha
    rw [expectedProfitSpec, totalCost]
    linarith
  · intro s sp
    constructor
    · rfl
    · rw [expected_profit, expectedProfitSpec, totalCost]
      ring

theorem expected_profit_cost_model_witness :
    expectedProfitSpec 2 5 1 1 1 = 2 * 5 - (1 + 1 + 1)
    ∧ expectedProfitSpec 2 5 1 1 1 ≤ 2 * 5 :=
  ⟨expected_profit_cost_model.1 2 5 1 1 1,
   expected_profit_cost_model.2.1 2 5 1 1 1 (by norm_num) (by norm_num) (by norm_num)⟩

/-! ## C8 — updatePrices reverts exactly on the guards and frames the rest -/

/-- C8: `updatePrices(y, n)` reverts (state unchanged) iff the caller is
not the owner, the market is inactive, or a price exceeds 10000;
otherwise it sets exactly `yesPrice`, `noPrice` and `lastUpdateTime`,
leaving `question`, `liquidity`, `active` and `owner` unchanged; a price
of 0 is accepted. -/
theorem updatePrices_frame_and_revert (s : DemoMarketState) (sender now y n : ℕ) :
    (updatePrices s sender now y n = none
        ↔ (sender ≠ s.owner ∨ s.market.active = false
            ∨ 10000 < y ∨ 10000 < n))
    ∧ (∀ s', updatePrices s sender now y n = some s' →
        s'.market.yesPrice = y ∧ s'.market.noPrice = n
        ∧ s'.lastUpdateTime = now
        ∧ s'.market.question = s.market.question
        ∧ s'.market.liquidity = s.market.liquidity
        ∧ s'.market.active = s.market.active
        ∧ s'.owner = s.owner)
    ∧ (sender = s.owner → s.market.active = true →
        (updatePrices s sender now 0 0).isSome = true) := by
  refine ⟨?_, ?_, ?_⟩
  · rw [updatePrices]
    split
    next h1 => simp [h1]
    next h1 =>
      split
      next h2 => simp [h1, h2]
      next h2 =>
        split
        next h3 =>
          constructor
          · intro _
            right; right
            omega
          · intro _
            rfl
        next h3 =>
          obtain ⟨hy10, hn10⟩ := not_not.mp h3
          constructor
          · intro h
            exact Option.noConfusion h
          · rintro (h | h | h | h)
            · exact absurd h h1
            · exact absurd h h2
            · exact absurd h (not_lt.mpr hy10)
            · exact absurd h (not_lt.mpr hn10)
  · intro s' h
    rw [updatePrices] at h
    split at h
    · exact Option.noConfusion h
    split at h
    · exact Option.noConfusion h
    split at h
    · exact Option.noConfusion h
    injection h with h
    subst h
    exact ⟨rfl, rfl, rfl, rfl, rfl, rfl, rfl⟩
  · intro h1 h2
    rw [updatePrices, if_neg (by simp [h1]), if_neg (by simp [h2]),
      if_neg (by norm_num)]
    rfl

theorem updatePrices_frame_and_revert_witness :
    updatePrices (constructorState "q" 3 0) 4 9 5000 5000 = none
    ∧ (updatePrices (constructorState "q" 3 0) 3 9 0 0).isSome = true :=
  ⟨(updatePrices_frame_and_revert (constructorState "q" 3 0) 4 9 5000 5000).1.mpr
      (Or.inl (by decide)),
   (updatePrices_frame_and_revert (constructorState "q" 3 0) 3 9 0 0).2.2
      (by decide) (by decide)⟩

/-! ## C9 — simulatePriceMovement clamps prices and preserves liquidity -/

/-- C9: after every successful `simulatePriceMovement` call both prices
lie in `[100, 9900]` basis points, liquidity is unchanged, and the
pre-clamp adjustment is bounded in magnitude by 250 basis points
(±2.5%, not the ±5% of the doc comment). -/
theorem simulatePriceMovement_bounds (s : DemoMarketState)
    (sender now randomness : ℕ) (s' : DemoMarketState)
    (h : simulatePriceMovement s sender now randomness = some s') :
    100 ≤ s'.market.yesPrice ∧ s'.market.yesPrice ≤ 9900
    ∧ 100 ≤ s'.market.noPrice ∧ s'.market.noPrice ≤ 9900
    ∧ s'.market.liquidity = s.market.liquidity
    ∧ |priceChange randomness| ≤ 250 := by
  rw [simulatePriceMovement] at h
  split at h
  · exact Option.noConfusion h
  split at h
  · exact Option.noConfusion h
  injection h with h
  subst h
  have h1 := clampPrice_bounds (toInt256 s.market.yesPrice + priceChange randomness)
  have h2 := clampPrice_bounds (toInt256 s.market.noPrice - priceChange randomness)
  have hb := priceChange_bound_aux randomness
  refine ⟨?_, ?_, ?_, ?_, rfl, abs_le.mpr hb⟩ <;>
    · dsimp only
      omega

theorem simulatePriceMovement_bounds_witness :
    100 ≤ simMovedState.market.yesPrice
    ∧ simMovedState.market.yesPrice ≤ 9900
    ∧ 100 ≤ simMovedState.market.noPrice
    ∧ simMovedState.market.noPrice ≤ 9900
    ∧ simMovedState.market.liquidity = (constructorState "q" 1 0).market.liquidity
    ∧ |priceChange 0| ≤ 250 :=
  simulatePriceMovement_bounds (constructorState "q" 1 0) 1 2 0 simMovedState
    (by decide)

/-! ## C1 — the daily spending cap is never exceeded -/

/-- C1: `can_spend(amount)` is true iff not revoked, the time is within
the window, and `spent_today + amount ≤ daily_limit`; under the Engine's
discipline, every sequence of `can_spend`/`record_spend` operations keeps
`spent_today ≤ daily_limit` (the limit itself never changes); and in
Scenario D, from `spent_today = 7.50` under `daily_limit = 10.0`, a spend
of 3.00 is refused while a spend of 2.50 is accepted and brings
`spent_today` to exactly 10.00. -/
theorem permission_guard_invariant :
    (∀ (now amount : ℚ) (st : PermissionState),
        can_spend now amount st = true
          ↔ (st.revoked = false ∧ st.window_start ≤ now
              ∧ now < st.window_start + st.duration
              ∧ st.spent_today + amount ≤ st.daily_limit))
    ∧ (∀ (ops : List (ℚ × GuardOp)) (st : PermissionState),
        st.spent_today ≤ st.daily_limit →
        (runGuard ops st).spent_today ≤ (runGuard ops st).daily_limit
        ∧ (runGuard ops st).daily_limit = st.daily_limit)
    ∧ (can_spend 0 3 scenarioDState = false
        ∧ can_spend 0 (5/2) scenarioDState = true
        ∧ (guardStep 0 (GuardOp.recordSpend (5/2)) scenarioDState).spent_today = 10) := by
  refine ⟨?_, ?_, ?_, ?_, ?_⟩
  · intro now amount st
    rw [can_spend]
    simp only [Bool.and_eq_true, decide_eq_true_eq, Bool.not_eq_true']
    tauto
  · intro ops
    induction ops with
    | nil =>
      intro st h
      exact ⟨h, rfl⟩
    | cons p rest ih =>
      intro st h
      rcases p with ⟨t, op⟩
      have h1 := guardStep_spent_le t op st h
      have h2 := guardStep_daily_limit_eq t op st
      obtain ⟨ha, hb⟩ := ih (guardStep t op st) h1
      refine ⟨ha, ?_⟩
      show (runGuard rest (guardStep t op st)).daily_limit = st.daily_limit
      rw [hb, h2]
  · norm_num [can_spend, scenarioDState]
  · norm_num [can_spend, scenarioDState]
  · norm_num [guardStep, can_spend, record_spend, scenarioDState]

theorem permission_guard_invariant_witness :
    (runGuard [(0, GuardOp.recordSpend 2), (0, GuardOp.recordSpend 2)]
        ⟨3, 0, 0, 1, false⟩).spent_today
      ≤ (runGuard [(0, GuardOp.recordSpend 2), (0, GuardOp.recordSpend 2)]
        ⟨3, 0, 0, 1, false⟩).daily_limit :=
  (permission_guard_invariant.2.1
    [(0, GuardOp.recordSpend 2), (0, GuardOp.recordSpend 2)]
    ⟨3, 0, 0, 1, false⟩ (by norm_num)).1

/-! ## C6 — book walk fills fully when depth covers the size -/

/-- C6: walking a book whose total depth covers the requested size leaves
no unfilled remainder; for Scenario B (asks 0.51×400 and 0.52×200, buy
size 600) the walk fills all 600 at total cost 308, so
VWAP = 308/600 = (400×0.51 + 200×0.52)/600 = 77/150 = 0.513333…. -/
theorem book_walk_full_fill :
    (∀ (size : ℚ) (levels : List Level),
        0 ≤ size → (∀ l ∈ levels, 0 ≤ l.size) →
        size ≤ (levels.map Level.size).sum →
        walkRemainder size levels = 0)
    ∧ bookWalk 600 [⟨51/100, 400⟩, ⟨52/100, 200⟩] = (308, 0)
    ∧ (308 : ℚ) / 600 = (400 * (51/100) + 200 * (52/100)) / 600
    ∧ (308 : ℚ) / 600 = 77/150 := by
  refine ⟨?_, by norm_num [bookWalk], by norm_num, by norm_num⟩
  intro size levels
  induction levels generalizing size with
  | nil =>
    intro h0 _ hsum
    simp only [List.map_nil, List.sum_nil] at hsum
    rw [walkRemainder, bookWalk]
    exact le_antisymm hsum h0
  | cons l ls ih =>
    intro h0 hnn hsum
    rw [walkRemainder]
    by_cases hz : size = 0
    · simp [bookWalk, hz]
    · simp only [bookWalk, if_neg hz]
      have hnn' : ∀ x ∈ ls, 0 ≤ x.size :=
        fun x hx => hnn x (List.mem_cons_of_mem _ hx)
      have h0' : 0 ≤ size - min size l.size := by
        have := min_le_left size l.size
        linarith
      have hsum' : size - min size l.size ≤ (ls.map Level.size).sum := by
        have hcons : ((l :: ls).map Level.size).sum
            = l.size + (ls.map Level.size).sum := by simp
        rcases le_total size l.size with hc | hc
        · rw [min_eq_left hc]
          have hnn'' : 0 ≤ (ls.map Level.size).sum := by
            apply List.sum_nonneg
            intro x hx
            obtain ⟨lv, hlv, rfl⟩ := List.mem_map.mp hx
            exact hnn' lv hlv
          linarith
        · rw [min_eq_right hc]
          rw [hcons] at hsum
          linarith
      exact ih (size - min size l.size) h0' hnn' hsum'

theorem book_walk_full_fill_witness :
    walkRemainder 600 [⟨51/100, 400⟩, ⟨52/100, 200⟩] = 0 :=
  book_walk_full_fill.1 600 [⟨51/100, 400⟩, ⟨52/100, 200⟩]
    (by norm_num)
    (by
      intro l hl
      simp only [List.mem_cons, List.not_mem_nil, or_false] at hl
      rcases hl with rfl | rfl <;> norm_num)
    (by norm_num)

/-! ## C7 — the daily-limit input validation -/

/-- Whenever `Number` reads a radix literal, `parseFloat` on the same
input reads only the leading `0` of the `0x`/`0b`/`0o` prefix. -/
lemma radixOf_parseDecPrefix_zero (t : List InChar) (radix : ℕ)
    (rest : List InChar) (h : radixOf t = some (radix, rest)) :
    ∃ tail, parseDecPrefix t = some (0, tail) := by
  rw [radixOf.eq_def] at h
  split at h
  · rename_i r
    exact ⟨.letterX :: r,
      by norm_num [parseDecPrefix, parseDigits, parseExponent]⟩
  · rename_i r
    exact ⟨.letterB :: r,
      by norm_num [parseDecPrefix, parseDigits, parseExponent]⟩
  · rename_i r
    exact ⟨.letterO :: r,
      by norm_num [parseDecPrefix, parseDigits, parseExponent]⟩
  · exact Option.noConfusion h

/-- C7 counterexample: on the input `"0x10"` the validator rejects even
though the input parses as a number strictly greater than zero —
`Number("0x10")` is 16, but `parseFloat` reads only the leading `0` —
so "accepted iff it parses as a number and is strictly greater than
zero" is false on the code. -/
theorem daily_limit_validation_counterexample :
    validateDailyLimit
      [InChar.digit 0, InChar.letterX, InChar.digit 1, InChar.digit 0] = false
    ∧ jsNumber
      [InChar.digit 0, InChar.letterX, InChar.digit 1, InChar.digit 0] = some 16
    ∧ (0 : ℚ) < 16 := by
  refine ⟨?_, ?_, by norm_num⟩
  · norm_num [validateDailyLimit, jsNumber, jsParseFloat, parseDecPrefix,
      parseDigits, parseExponent, radixOf, jsRadixTail, parseRadixDigits,
      radixDigitVal, hexVal, isSpace, List.dropWhile]
  · norm_num [jsNumber, radixOf, jsRadixTail, parseRadixDigits,
      radixDigitVal, hexVal, isSpace, List.dropWhile]
    decide

/-- C7 (amended): the daily-limit prompt accepts an input only if it
parses as a number (`Number` is not NaN) that is strictly greater than
zero — so every non-numeric or non-positive input fails validation; the
converse fails on radix literals such as `"0x10"`, which `Number` parses
as a positive value while `parseFloat` reads 0. -/
theorem daily_limit_validation_sound :
    (∀ s : List InChar, validateDailyLimit s = true →
        (jsNumber s).isSome = true)
    ∧ (∀ (s : List InChar) (v : ℚ), validateDailyLimit s = true →
        jsNumber s = some v → 0 < v) := by
  constructor
  · intro s h
    rw [validateDailyLimit, Bool.and_eq_true] at h
    exact h.1
  · intro s v h hv
    rw [validateDailyLimit, Bool.and_eq_true] at h
    obtain ⟨h1, h2⟩ := h
    rcases hp : parseDecPrefix (s.dropWhile isSpace) with - | wr
    · rw [jsParseFloat, hp] at h2
      simp at h2
    · obtain ⟨w, rest⟩ := wr
      have hw : 0 < w := by
        rw [jsParseFloat, hp] at h2
        simp only [Option.map_some'] at h2
        exact of_decide_eq_true h2
      rw [jsNumber] at hv
      by_cases ht : s.dropWhile isSpace = []
      · rw [ht] at hp
        exact absurd hp
          (by rw [show parseDecPrefix ([] : List InChar) = none from rfl]; simp)
      · rw [if_neg ht] at hv
        rcases hr : radixOf (s.dropWhile isSpace) with - | rp
        · rw [hr] at hv
          simp only [hp] at hv
          split at hv
          · injection hv with hv
            rw [← hv]
            exact hw
          · exact Option.noConfusion hv
        · obtain ⟨radix, rest2⟩ := rp
          obtain ⟨tail, htail⟩ := radixOf_parseDecPrefix_zero _ _ _ hr
          rw [htail] at hp
          injection hp with hp
          cases hp
          exact absurd hw (lt_irrefl 0)

theorem daily_limit_validation_sound_witness :
    (jsNumber [InChar.digit 1, InChar.digit 0]).isSome = true
    ∧ (0 : ℚ) < 10 :=
  ⟨daily_limit_validation_sound.1 [InChar.digit 1, InChar.digit 0]
      (by
        norm_num [validateDailyLimit, jsNumber, jsParseFloat, parseDecPrefix,
          parseDigits, parseExponent, radixOf, jsRadixTail, parseRadixDigits,
          radixDigitVal, hexVal, isSpace, List.dropWhile]
        decide),
   daily_limit_validation_sound.2 [InChar.digit 1, InChar.digit 0] 10
      (by
        norm_num [validateDailyLimit, jsNumber, jsParseFloat, parseDecPrefix,
          parseDigits, parseExponent, radixOf, jsRadixTail, parseRadixDigits,
          radixDigitVal, hexVal, isSpace, List.dropWhile]
        decide)
      (by
        norm_num [jsNumber, parseDecPrefix, parseDigits, parseExponent,
          radixOf, isSpace, List.dropWhile]
        decide)⟩

end ArbiShark
